import Mathlib

/-!
Verification development for the Devsparks Legal-Metrology backend
(`server/index.js`): domain allowlist guard, LM field parser, extraction
strategy controller (HTML tier, browser tier, auto escalation), OCR provider
layer (vision / gemini / tesseract / hybrid) and the barcode lookup route.

The JavaScript source is shallowly embedded: JS strings/null are `Option
String` (with `none` for null/undefined), JS `||` is `jsOr` (falsiness of ""
and 0 is modelled), the regexes of the source are embedded as executable
character-list matchers that follow the JS engine's leftmost-match,
greedy-with-backtracking semantics, and every network / DOM / OCR-library
effect is an explicit input ("world") to the embedded function.
-/

/- ===== JS primitive semantics ===== -/

/-- JS whitespace class `\s`, restricted to the ASCII whitespace characters
(the inputs the parser sees are whitespace-collapsed, so only `' '` occurs;
Unicode space classes are not modelled). -/
def isWS (c : Char) : Bool :=
  c == ' ' || c == '\t' || c == '\n' || c == '\r' || c == '\x0b' || c == '\x0c'

/-- Regex class `[0-9]` / `\d`. -/
def isDigitC (c : Char) : Bool := c.isDigit

/-- Regex class `[A-Z]`. -/
def isUpperAZ (c : Char) : Bool := 'A' ≤ c && c ≤ 'Z'

/-- Regex class `[A-Z0-9]` (complement of the filler class `[^A-Z0-9]`). -/
def isAlnumAZ (c : Char) : Bool := isUpperAZ c || isDigitC c

/-- Truthiness of a JS string-or-null value: null/undefined and `""` are falsy. -/
def truthy : Option String → Bool
  | none => false
  | some s => s ≠ ""

/-- JS `a || b` on string-or-null values. -/
def jsOr (a b : Option String) : Option String := if truthy a then a else b

/-- JS `x || null`: collapses a falsy value (including `""`) to null. -/
def normNull (a : Option String) : Option String := if truthy a then a else none

/-- A JS value that can sit in the extractors' `price` variable: null,
a JSON number, or a string. -/
inductive JsVal where
  | null
  | num (q : ℚ)
  | str (s : String)
deriving DecidableEq

/-- JS truthiness for `JsVal` (`0`, `""` and null are falsy). -/
def JsVal.truthy : JsVal → Bool
  | .null => false
  | .num q => q ≠ 0
  | .str s => s ≠ ""

/-- JS `a || b` at `JsVal` type (used for `price ||= ...`). -/
def jsOrV (a b : JsVal) : JsVal := if a.truthy then a else b

/-- Lift a string-or-null to a `JsVal`. -/
def JsVal.ofStr : Option String → JsVal
  | none => .null
  | some s => .str s

/-- JS `String.prototype.trim` on a character list. -/
def jsTrim (s : List Char) : List Char :=
  ((s.dropWhile isWS).reverse.dropWhile isWS).reverse

/-- `needle.isPrefix-of hay` as a Bool, char by char (embeds matching a regex
literal at the current position). -/
def startsWithL : List Char → List Char → Bool
  | [], _ => true
  | _ :: _, [] => false
  | n :: ns, c :: cs => n == c && startsWithL ns cs

/-- Match a literal at the head of the input, returning the rest. -/
def dropLit : List Char → List Char → Option (List Char)
  | [], cs => some cs
  | _ :: _, [] => none
  | n :: ns, c :: cs => if n == c then dropLit ns cs else none

/-- `anySuffix f l` is true iff `f` holds on some suffix of `l` (the regex
engine's scan over starting positions, leftmost first). -/
def anySuffix (f : List Char → Bool) : List Char → Bool
  | [] => f []
  | c :: cs => f (c :: cs) || anySuffix f cs

/-- Leftmost-position regex search: try the matcher at index 0, 1, …
(including the empty suffix), returning the first success. -/
def scan {α : Type} (f : List Char → Option α) : List Char → Option α
  | [] => f []
  | c :: cs =>
    match f (c :: cs) with
    | some r => some r
    | none => scan f cs

/-- Substring test (`String.prototype.includes`). -/
def containsL (needle : List Char) (hay : List Char) : Bool :=
  anySuffix (startsWithL needle) hay

/-- Case-insensitive substring test (a regex `/lit/i.test(s)`). -/
def ciContainsL (needle hay : List Char) : Bool :=
  containsL (needle.map Char.toLower) (hay.map Char.toLower)

/- ===== Domain Allowlist Guard (`isAllowedHost`, index.js lines 77-87) ===== -/

/-- The suffixes of the `ALLOW_RE` regex list, in source order. -/
def ALLOW_SUFFIXES : List (List Char) :=
  ["amazon.in", "flipkart.com", "myntra.com", "bigbasket.com",
   "grofers.com", "1mg.com", "nykaa.com"].map String.data

/-- Embeds the search for `\.SUFFIX$` inside the host: true iff some `'.'` in
the (lowercased) host is immediately followed by exactly the suffix, ending
the string. -/
def endsMatch (suffix : List Char) : List Char → Bool
  | [] => false
  | c :: rest => (c == '.' && rest == suffix) || endsMatch suffix rest

/-- Embeds `/(\.|^)SUFFIX$/i.test(host)`: either the whole lowercased host is
the suffix (the `^` branch) or a dot-preceded occurrence ends the host. -/
def reSuffixTest (suffix host : List Char) : Bool :=
  let h := host.map Char.toLower
  h == suffix || endsMatch suffix h

/-- `isAllowedHost` (index.js line 87): some allowlist pattern matches. -/
def isAllowedHost (host : String) : Bool :=
  ALLOW_SUFFIXES.any (fun s => reSuffixTest s host.data)

/- ===== C1 support lemmas ===== -/

theorem endsMatch_iff (suffix l : List Char) :
    endsMatch suffix l = true ↔ ∃ p, l = p ++ '.' :: suffix := by
  induction l with
  | nil =>
    simp [endsMatch]
  | cons c rest ih =>
    simp only [endsMatch, Bool.or_eq_true, Bool.and_eq_true, beq_iff_eq, ih]
    constructor
    · rintro (⟨rfl, rfl⟩ | ⟨p, rfl⟩)
      · exact ⟨[], rfl⟩
      · exact ⟨c :: p, rfl⟩
    · rintro ⟨p, hp⟩
      cases p with
      | nil =>
        simp only [List.nil_append, List.cons.injEq] at hp
        exact Or.inl ⟨hp.1, hp.2⟩
      | cons x xs =>
        simp only [List.cons_append, List.cons.injEq] at hp
        exact Or.inr ⟨xs, hp.2⟩

theorem reSuffixTest_iff (suffix : List Char) (host : String) :
    reSuffixTest suffix host.data = true ↔
      (host.data.map Char.toLower = suffix ∨
       ∃ p, host.data.map Char.toLower = p ++ '.' :: suffix) := by
  simp only [reSuffixTest, Bool.or_eq_true, beq_iff_eq, endsMatch_iff]

/-- C1: the Domain Allowlist Guard accepts a hostname iff it case-insensitively
ends with one of the seven configured domain suffixes on a label boundary
(the suffix is the whole hostname or is preceded by a dot); in particular
`www.amazon.in` and `AMAZON.IN` are accepted while the subdomain-spoofing
hostname `amazon.in.evil.com` is rejected. -/
theorem allowlist_suffix_boundary_spec :
    (∀ host : String,
      isAllowedHost host = true ↔
        ∃ s ∈ ALLOW_SUFFIXES,
          (host.data.map Char.toLower = s ∨
           ∃ p, host.data.map Char.toLower = p ++ '.' :: s))
    ∧ isAllowedHost "www.amazon.in" = true
    ∧ isAllowedHost "AMAZON.IN" = true
    ∧ isAllowedHost "amazon.in.evil.com" = false := by
  refine ⟨fun host => ?_, by decide, by decide, by decide⟩
  simp only [isAllowedHost, List.any_eq_true]
  constructor
  · rintro ⟨s, hs, hmatch⟩
    exact ⟨s, hs, (reSuffixTest_iff s host).mp hmatch⟩
  · rintro ⟨s, hs, hmatch⟩
    exact ⟨s, hs, (reSuffixTest_iff s host).mpr hmatch⟩

/- ===== LM field parser (`parseFields`, index.js lines 240-273) ===== -/

/-- One step of `.replace(/\s+/g, " ")`: every maximal whitespace run becomes
a single space. `prevWS` says whether we are inside a run already emitted. -/
def collapseGo (prevWS : Bool) : List Char → List Char
  | [] => []
  | c :: cs =>
    if isWS c then
      if prevWS then collapseGo true cs else ' ' :: collapseGo true cs
    else c :: collapseGo false cs

/-- `(fullText || "").replace(/\s+/g, " ").toUpperCase()` (index.js line 242). -/
def normalizeL (s : List Char) : List Char :=
  (collapseGo false s).map Char.toUpper

/-- Take at most `n` leading digits, without looking past the cap
(a bounded greedy `\d{1,n}` whose tail never backtracks). -/
def takeUpToD : Nat → List Char → List Char × List Char
  | 0, cs => ([], cs)
  | _ + 1, [] => ([], [])
  | n + 1, c :: cs =>
    if isDigitC c then
      let (a, b) := takeUpToD n cs
      (c :: a, b)
    else ([], c :: cs)

/-- Exactly three digits (`\d{3}`). -/
def exact3 : List Char → Option (List Char × List Char)
  | a :: b :: c :: r =>
    if isDigitC a && isDigitC b && isDigitC c then some ([a, b, c], r) else none
  | _ => none

/-- Greedy `(?:[ ,]?\d{3})*` for the MRP amount: each iteration prefers
taking a separator, falling back to a bare 3-digit block; the star stops at
the first failing iteration (nothing after the group can force backtracking). -/
def starSepGo : Nat → List Char → List Char × List Char
  | 0, cs => ([], cs)
  | fuel + 1, cs =>
    let attempt : Option (List Char × List Char) :=
      match cs with
      | c :: cs' =>
        if c == ' ' || c == ',' then
          match exact3 cs' with
          | some (d, r) => some (c :: d, r)
          | none =>
            match exact3 cs with
            | some (d, r) => some (d, r)
            | none => none
        else
          match exact3 cs with
          | some (d, r) => some (d, r)
          | none => none
      | [] => none
    match attempt with
    | some (d, r) =>
      let (ds, r') := starSepGo fuel r
      (d ++ ds, r')
    | none => ([], cs)

/-- Optional decimal part `(?:\.\d{1,2})?` (needs at least one digit). -/
def decPart : List Char → List Char × List Char
  | '.' :: rest =>
    let (d, r) := takeUpToD 2 rest
    if d.isEmpty then ([], '.' :: rest) else ('.' :: d, r)
  | cs => ([], cs)

/-- Label alternation `(MRP|M\.R\.P)` (source order). -/
def mrpLabel (cs : List Char) : Option (List Char) :=
  match dropLit "MRP".data cs with
  | some r => some r
  | none => dropLit "M.R.P".data cs

/-- The regex `(MRP|M\.R\.P)[^0-9]*([₹R]?\s?\d{1,3}(?:[ ,]?\d{3})*(?:\.\d{1,2})?)`
tried at the current position, returning capture group 2. The greedy filler
`[^0-9]*` always reaches the first digit (the optional `[₹R]?\s?` prefix of
the group is subsumed by it), so the capture starts at the first digit after
the label and fails when none exists. -/
def matchMrpAt (cs : List Char) : Option (List Char) :=
  match mrpLabel cs with
  | none => none
  | some rest =>
    let after := rest.dropWhile (fun c => !isDigitC c)
    match after with
    | [] => none
    | _ :: _ =>
      let (d1, r1) := takeUpToD 3 after
      let (grp, r2) := starSepGo r1.length r1
      let (dec, _) := decPart r2
      some (d1 ++ grp ++ dec)

/-- Unit alternation `(?:ML|L|G|KG|GM)` (source order; first match wins, so
`GM` text is captured as `G`). -/
def netUnits : List (List Char) := ["ML", "L", "G", "KG", "GM"].map String.data

/-- First alternative of a literal list matching at the head. -/
def altsM (alts : List (List Char)) (cs : List Char) : Option (List Char × List Char) :=
  alts.findSome? fun a => (dropLit a cs).map fun r => (a, r)

/-- The capture `(\d+(?:\.\d+)?\s?(?:ML|L|G|KG|GM))` at the current position. -/
def netGroupAt (cs : List Char) : Option (List Char) :=
  match cs with
  | [] => none
  | c :: _ =>
    if !isDigitC c then none
    else
      let (d1, r1) := cs.span isDigitC
      let (frac, r2) :=
        match r1 with
        | '.' :: fr =>
          let (fd, frest) := fr.span isDigitC
          if fd.isEmpty then (([] : List Char), r1) else ('.' :: fd, frest)
        | _ => ([], r1)
      let (sp, r3) :=
        match r2 with
        | c' :: r' => if isWS c' then ([c'], r') else (([] : List Char), r2)
        | [] => ([], r2)
      match altsM netUnits r3 with
      | some (u, _) => some (d1 ++ frac ++ sp ++ u)
      | none =>
        -- `\s?` backtracks to the empty case; a unit never starts with
        -- whitespace, so this only helps when no space was taken.
        match altsM netUnits r2 with
        | some (u, _) => if sp.isEmpty then some (d1 ++ frac ++ u) else none
        | none => none

/-- The regex
`(?:NET\s*(?:QTY|QUANTITY|WT|WEIGHT)[^0-9A-Z]*)?(\d+(?:\.\d+)?\s?(?:ML|L|G|KG|GM))`
at the current position: the optional labelled prefix is preferred, falling
back to the bare quantity group. -/
def matchNetAt (cs : List Char) : Option (List Char) :=
  let withPrefix : Option (List Char) :=
    match dropLit "NET".data cs with
    | none => none
    | some r1 =>
      let r2 := r1.dropWhile isWS
      match altsM (["QTY", "QUANTITY", "WT", "WEIGHT"].map String.data) r2 with
      | none => none
      | some (_, r3) => netGroupAt (r3.dropWhile (fun c => !isAlnumAZ c))
  match withPrefix with
  | some g => some g
  | none => netGroupAt cs

/-- First alternative of the best-before capture:
`[0-9]{1,2}\s*(?:MONTH|MONTHS|YEAR|YEARS)` with the `{1,2}` backtracking from
two digits to one. -/
def bestAlt1 (cs : List Char) : Option (List Char) :=
  let try1 : List Char → List Char → Option (List Char) := fun d r =>
    let (sp, r2) := r.span isWS
    match altsM (["MONTH", "MONTHS", "YEAR", "YEARS"].map String.data) r2 with
    | some (u, _) => some (d ++ sp ++ u)
    | none => none
  match cs with
  | a :: b :: r =>
    if isDigitC a then
      if isDigitC b then
        match try1 [a, b] r with
        | some g => some g
        | none => try1 [a] (b :: r)
      else try1 [a] (b :: r)
    else none
  | [a] => if isDigitC a then try1 [a] [] else none
  | [] => none

/-- The regex
`BEST\s+BEFORE[^A-Z0-9]*([0-9]{1,2}\s*(?:MONTH|MONTHS|YEAR|YEARS)|\d+\s*DAYS)`
at the current position (capture group 1). -/
def matchBestAt (cs : List Char) : Option (List Char) :=
  match dropLit "BEST".data cs with
  | none => none
  | some r1 =>
    let (ws, r2) := r1.span isWS
    if ws.isEmpty then none
    else
      match dropLit "BEFORE".data r2 with
      | none => none
      | some r3 =>
        let r4 := r3.dropWhile (fun c => !isAlnumAZ c)
        match bestAlt1 r4 with
        | some g => some g
        | none =>
          match r4 with
          | c :: _ =>
            if isDigitC c then
              let (d, r) := r4.span isDigitC
              let (sp, r2') := r.span isWS
              (dropLit "DAYS".data r2').map fun _ => d ++ sp ++ "DAYS".data
            else none
          | [] => none

/-- The regex `COUNTRY\s+OF\s+ORIGIN[^A-Z0-9]*([A-Z]+)` at the current
position (capture group 1). -/
def matchOriginAt (cs : List Char) : Option (List Char) :=
  match dropLit "COUNTRY".data cs with
  | none => none
  | some r1 =>
    let (w1, r2) := r1.span isWS
    if w1.isEmpty then none
    else
      match dropLit "OF".data r2 with
      | none => none
      | some r3 =>
        let (w2, r4) := r3.span isWS
        if w2.isEmpty then none
        else
          match dropLit "ORIGIN".data r4 with
          | none => none
          | some r5 =>
            let r6 := r5.dropWhile (fun c => !isAlnumAZ c)
            let (g, _) := r6.span isUpperAZ
            if g.isEmpty then none else some g

/-- The manufacturer value class `[A-Z0-9&\-\., ]`. -/
def manuClass (c : Char) : Bool :=
  isUpperAZ c || isDigitC c || c == '&' || c == '-' || c == '.' || c == ',' || c == ' '

/-- Label alternation `(?:MFD\s+BY|MANUFACTURER|MFRD\s+BY|MFG\s+BY)`
(source order). -/
def manuLabel (cs : List Char) : Option (List Char) :=
  let wordBy : List Char → Option (List Char) := fun r =>
    let (ws, r2) := r.span isWS
    if ws.isEmpty then none else dropLit "BY".data r2
  match (dropLit "MFD".data cs).bind wordBy with
  | some r => some r
  | none =>
    match dropLit "MANUFACTURER".data cs with
    | some r => some r
    | none =>
      match (dropLit "MFRD".data cs).bind wordBy with
      | some r => some r
      | none => (dropLit "MFG".data cs).bind wordBy

/-- The greedy filler `[^A-Z0-9]*` backtracking from length `k` downwards
until the capture `([A-Z0-9&\-\., ]{6,})` (greedy, at least six characters)
succeeds. -/
def manuDescend : Nat → List Char → Option (List Char)
  | k, r =>
    let (g, _) := (r.drop k).span manuClass
    if 6 ≤ g.length then some g
    else
      match k with
      | 0 => none
      | k' + 1 => manuDescend k' r

/-- The regex `(?:MFD\s+BY|MANUFACTURER|MFRD\s+BY|MFG\s+BY)[^A-Z0-9]*([A-Z0-9&\-\., ]{6,})`
at the current position (capture group 1). -/
def matchManuAt (cs : List Char) : Option (List Char) :=
  match manuLabel cs with
  | none => none
  | some r =>
    let fillerMax := (r.span (fun c => !isAlnumAZ c)).1.length
    manuDescend fillerMax r

/-- All splits of a leading digit run as `\d{3,}`, longest first
(the JS engine's greedy backtracking order). -/
def digitSplits3 (cs : List Char) : List (List Char × List Char) :=
  let (d, r) := cs.span isDigitC
  let m := d.length
  (List.range (m + 1)).reverse.filterMap fun i =>
    if 3 ≤ i then some (d.take i, d.drop i ++ r) else none

/-- Optional separator `[-\s]?`: the with-separator branch is preferred. -/
def optSep (cs : List Char) : List (List Char × List Char) :=
  match cs with
  | c :: r => if c == '-' || isWS c then [([c], r), ([], cs)] else [([], cs)]
  | [] => [([], [])]

/-- First alternative of the consumer-care capture:
`\d{3,}[-\s]?\d{3,}[-\s]?\d{3,}` with full backtracking in the JS
preference order. -/
def careAlt1 (cs : List Char) : Option (List Char) :=
  (digitSplits3 cs).findSome? fun p1 =>
    (optSep p1.2).findSome? fun s1 =>
      (digitSplits3 s1.2).findSome? fun p2 =>
        (optSep p2.2).findSome? fun s2 =>
          let (d3, _) := s2.2.span isDigitC
          if 3 ≤ d3.length then some (p1.1 ++ s1.1 ++ p2.1 ++ s2.1 ++ d3)
          else none

/-- The regex
`(?:CONSUMER\s*CARE|CUSTOMER\s*CARE)[^0-9]*(\d{3,}[-\s]?\d{3,}[-\s]?\d{3,}|\d{10,})`
at the current position (capture group 1). -/
def matchCareAt (cs : List Char) : Option (List Char) :=
  let label : Option (List Char) :=
    let care : List Char → Option (List Char) := fun r =>
      dropLit "CARE".data (r.dropWhile isWS)
    match (dropLit "CONSUMER".data cs).bind care with
    | some r => some r
    | none => (dropLit "CUSTOMER".data cs).bind care
  match label with
  | none => none
  | some r =>
    let after := r.dropWhile (fun c => !isDigitC c)
    match careAlt1 after with
    | some g => some g
    | none =>
      let (d, _) := after.span isDigitC
      if 10 ≤ d.length then some d else none

/-- The product-name value class `[A-Z0-9 \-\+]`. -/
def nameClass (c : Char) : Bool :=
  isUpperAZ c || isDigitC c || c == ' ' || c == '-' || c == '+'

/-- The regex `([A-Z][A-Z0-9 \-\+]{6,})\s*(?:HONEY|TEA|OIL|RICE|BISCUIT|MILK|JUICE|POWDER)?`
at the current position (capture group 1; everything after the capture is
optional so the capture is the greedy maximum). -/
def matchNameAt (cs : List Char) : Option (List Char) :=
  match cs with
  | [] => none
  | c :: r =>
    if isUpperAZ c then
      let (g, _) := r.span nameClass
      if 6 ≤ g.length then some (c :: g) else none
    else none

/-- A detected LM field: `{text, confidence, compliant}`. -/
structure DetectedField where
  text : Option String
  confidence : Nat
  compliant : Bool
deriving DecidableEq

/-- The seven-slot detected field set returned by the parser: every slot is
present by construction (the totality invariant of §3 of the spec). -/
structure DetectedFieldSet where
  productName : DetectedField
  netQuantity : DetectedField
  mrp : DetectedField
  manufacturer : DetectedField
  countryOfOrigin : DetectedField
  consumerCare : DetectedField
  bestBefore : DetectedField
deriving DecidableEq

/-- `m?.[k] || null`: the capture as a string, with the empty capture
collapsed to null. -/
def groupText (g : Option (List Char)) : Option String :=
  match g with
  | none => none
  | some cs => if cs.isEmpty then none else some (String.mk cs)

/-- `parseFields` (index.js lines 241-273): normalize, run the seven
regexes, and build the fixed seven-slot record with the source's hard-coded
confidence weights. -/
def parseFields (fullText : String) : DetectedFieldSet :=
  let text := normalizeL fullText.data
  let mMrp := scan matchMrpAt text
  let mNet := scan matchNetAt text
  let mBest := scan matchBestAt text
  let mOrigin := scan matchOriginAt text
  let mManu := scan matchManuAt text
  let mCare := scan matchCareAt text
  let mName := scan matchNameAt text
  { productName := ⟨groupText mName, 80, mName.isSome⟩
    netQuantity := ⟨groupText mNet, 85, mNet.isSome⟩
    mrp := ⟨groupText mMrp, 85, mMrp.isSome⟩
    manufacturer := ⟨groupText (mManu.map jsTrim), 70, mManu.isSome⟩
    countryOfOrigin := ⟨groupText mOrigin, 70, mOrigin.isSome⟩
    consumerCare := ⟨groupText mCare, 70, mCare.isSome⟩
    bestBefore := ⟨groupText mBest, 65, mBest.isSome⟩ }

/- ===== Price normalization and platform naming (index.js 110-131) ===== -/

/-- Digits of a decimal numeral to a natural number. -/
def digitsToNat (d : List Char) : Nat :=
  d.foldl (fun a c => a * 10 + (c.toNat - '0'.toNat)) 0

/-- JS `Number()` on a string that contains only digits and dots (the result
of the strip below): `""` is 0, at most one dot is allowed, a lone `"."` and
multi-dot strings are NaN (`none`). -/
def parseJsNumber (d : List Char) : Option ℚ :=
  let dots := d.count '.'
  if dots = 0 then some (digitsToNat d : ℚ)
  else if dots = 1 then
    if d.length = 1 then none
    else
      let intPart := d.takeWhile (fun c => c ≠ '.')
      let frac := (d.dropWhile (fun c => c ≠ '.')).drop 1
      some ((digitsToNat intPart : ℚ) + (digitsToNat frac : ℚ) / ((10 : ℚ) ^ frac.length))
  else none

/-- `normalizePrice` (index.js lines 110-115): null stays null, numbers pass
through, strings are stripped with `replace(/[^\d.]/g, "")` and parsed;
a non-finite parse yields null. -/
def normalizePrice : JsVal → Option ℚ
  | .null => none
  | .num q => some q
  | .str s => parseJsNumber (s.data.filter (fun c => isDigitC c || c == '.'))

/-- `platformFromHost` (index.js lines 117-130): case-sensitive
`host.includes` ladder in source order. -/
def platformFromHost (host : String) : String :=
  if containsL "amazon".data host.data then "Amazon"
  else if containsL "flipkart".data host.data then "Flipkart"
  else if containsL "myntra".data host.data then "Myntra"
  else if containsL "bigbasket".data host.data then "BigBasket"
  else if containsL "nykaa".data host.data then "Nykaa"
  else if containsL "1mg".data host.data then "1mg"
  else "Unknown"

/-- `String.prototype.toLowerCase` on the characters (ASCII; used instead of
core `String.toLower`, which is definitionally opaque to the kernel). -/
def strToLower (s : String) : String := String.mk (s.data.map Char.toLower)

/-- `minimalOk` needs the record type first; see below. -/
def strEndsWith (s suffix : String) : Bool :=
  suffix.data.isSuffixOf s.data

/- ===== Product records and the JSON-LD product node ===== -/

/-- A parsed URL as the handlers see it (`new URL(u)`): only the fields the
source reads are modelled. -/
structure Url where
  hostname : String
  href : String
deriving DecidableEq

/-- The common product-record shape both extractors return
(index.js lines 413-423 and 571-581). -/
structure ProductRecord where
  platform : String
  url : String
  productName : Option String
  brand : Option String
  price : Option ℚ
  currency : Option String
  image : Option String
  rating : Option ℚ
  ratingCount : Option ℚ
deriving DecidableEq

/-- `minimalOk` (index.js line 132): at least one of
productName/brand/price/image is JS-truthy (`""` and `0` do not count). -/
def minimalOk (d : ProductRecord) : Bool :=
  truthy d.productName || truthy d.brand ||
    (match d.price with | none => false | some q => q ≠ 0) || truthy d.image

/-- The `brand` property of a JSON-LD product node: a string, an object with
an optional `name`, or absent/null. -/
inductive JsBrand where
  | absent
  | str (s : String)
  | obj (name : Option String)

/-- `typeof brand === "string" ? brand : brand?.name || null`. -/
def resolveBrand : JsBrand → Option String
  | .absent => none
  | .str s => some s
  | .obj n => normNull n

/-- The `image` property of a JSON-LD product node: a string, an array
(only its first element is read), or absent/null. -/
inductive JsImage where
  | absent
  | str (s : String)
  | arr (head : Option String)

/-- `Array.isArray(image) ? image[0] : image || null`. -/
def resolveImage : JsImage → Option String
  | .absent => none
  | .str s => normNull (some s)
  | .arr h => h

/-- The first offer of a JSON-LD product node
(`Array.isArray(offers) ? offers[0] : offers`, pre-resolved). -/
structure JsOffers where
  price : JsVal
  priceCurrency : Option String

/-- `aggregateRating` of a JSON-LD product node. Numeric JSON values are
modelled as rationals (the source's final `Number(...)` coercion is the
identity on them). -/
structure JsAgg where
  ratingValue : Option ℚ
  ratingCount : Option ℚ
  reviewCount : Option ℚ

/-- The JSON-LD `Product` node found by
`jsonld.find(n => n?.["@type"] === "Product" || ...)`, restricted to the
properties the extractors read. -/
structure ProductNode where
  name : Option String
  brand : JsBrand
  image : JsImage
  offers : Option JsOffers
  aggregateRating : Option JsAgg

/- ===== Amazon title-suffix strip (index.js line 386) ===== -/

/-- Case-insensitive literal match at the head of the input. -/
def dropLitCI : List Char → List Char → Option (List Char)
  | [], cs => some cs
  | _ :: _, [] => none
  | n :: ns, c :: cs => if n.toLower == c.toLower then dropLitCI ns cs else none

/-- Does `/\s*: Amazon\.in.*$/i` match starting here? `.*$` cannot cross a
line terminator, so the whole remainder must be newline-free. -/
def stripMatchesHere (cs : List Char) : Bool :=
  match dropLitCI ": amazon.in".data (cs.dropWhile isWS) with
  | some rest => rest.all (fun c => !(c == '\n' || c == '\r'))
  | none => false

/-- Remove the leftmost `/\s*: Amazon\.in.*$/i` match (the rest of the string
from there); identity when the pattern never matches. -/
def stripAmazonCore : List Char → List Char
  | [] => []
  | c :: cs => if stripMatchesHere (c :: cs) then [] else c :: stripAmazonCore cs

/-- `productName.replace(/\s*: Amazon\.in.*$/i, "").trim()`. -/
def stripAmazon (s : String) : String :=
  String.mk (jsTrim (stripAmazonCore s.data))

/-- The guard `if (productName && /: Amazon\.in/i.test(productName))` with
its replacement applied. -/
def amazonTitleFix (pn : Option String) : Option String :=
  match pn with
  | none => none
  | some s =>
    if s ≠ "" && ciContainsL ": amazon.in".data s.data then some (stripAmazon s)
    else some s

/- ===== HTML extractor (`extractFromHtml`, index.js lines 347-424) ===== -/

/-- The document facts `extractFromHtml` reads through cheerio, abstracted as
the query results themselves: `tsel` is `$(sel).first().text()?.trim()` (the
empty string when the selector hits nothing), `attrOf` is
`$(sel).first().attr(a)`, `metaOf` is the content of `meta[property=p]`,
`rawText` is an untrimmed `.text()` read, `titleText` is
`$("title").text().trim()`, and `jsonld` is the `Product` node found in the
`application/ld+json` scripts (if any). -/
structure Dom where
  tsel : String → String
  attrOf : String → String → Option String
  metaOf : String → Option String
  rawText : String → String
  titleText : String
  jsonld : Option ProductNode

/-- `t(sel)` (index.js line 351): trimmed text or null. -/
def tQ (d : Dom) (sel : String) : Option String := normNull (some (d.tsel sel))

/-- `attr(sel, a)` (index.js line 352). -/
def attrQ (d : Dom) (sel a : String) : Option String := normNull (d.attrOf sel a)

/-- `meta(p)` (index.js line 353). -/
def metaQ (d : Dom) (p : String) : Option String := normNull (d.metaOf p)

/-- The mutable variable group of the extractors. -/
structure ExtractVars where
  pn : Option String
  br : Option String
  pr : JsVal
  curr : Option String
  im : Option String
  rat : Option ℚ
  ratc : Option ℚ

/-- The initial values of the extractor variables (index.js lines 355-361
and 516): everything null except `currency = "INR"`. -/
def initVars : ExtractVars :=
  ⟨none, none, .null, some "INR", none, none, none⟩

/-- The JSON-LD step of `extractFromHtml` (index.js lines 374-382): `||=`
updates from the product node, `currency = offers.priceCurrency || currency`,
`rating = agg.ratingValue ?? rating`,
`ratingCount = agg.ratingCount ?? agg.reviewCount ?? ratingCount`. -/
def jsonLdStep (node? : Option ProductNode) (v : ExtractVars) : ExtractVars :=
  match node? with
  | none => v
  | some node =>
    let pn := jsOr v.pn (normNull node.name)
    let br := jsOr v.br (resolveBrand node.brand)
    let im := jsOr v.im (resolveImage node.image)
    let prCurr :=
      match node.offers with
      | none => (v.pr, v.curr)
      | some o => (jsOrV v.pr (if o.price.truthy then o.price else .null),
                   jsOr o.priceCurrency v.curr)
    let ratPair :=
      match node.aggregateRating with
      | none => (v.rat, v.ratc)
      | some a => (a.ratingValue.orElse (fun _ => v.rat),
                   (a.ratingCount.orElse (fun _ => a.reviewCount)).orElse
                     (fun _ => v.ratc))
    ⟨pn, br, prCurr.1, prCurr.2, im, ratPair.1, ratPair.2⟩

/-- The selector-chain variable group (productName/brand/price/image; the
other variables are not touched by the per-platform chains). -/
structure ChainVars where
  pn : Option String
  br : Option String
  pr : JsVal
  im : Option String

/-- The per-platform selector chains of `extractFromHtml`
(index.js lines 384-411), transcribed branch for branch. -/
def platformChains (d : Dom) (host : String) (c : ChainVars) : ChainVars :=
  if strEndsWith host "amazon.in" then
    let pn := jsOr c.pn (jsOr (tQ d "#productTitle") (jsOr (tQ d "span#title")
      (jsOr (metaQ d "og:title") (some d.titleText))))
    let pn := amazonTitleFix pn
    let br := jsOr c.br (jsOr (tQ d "#bylineInfo") (jsOr (tQ d "a#bylineInfo")
      (jsOr (tQ d "tr.po-brand td.a-span9 span") (tQ d ".po-brand .a-span9 .a-size-base"))))
    let pr := jsOrV c.pr (JsVal.ofStr (jsOr (tQ d ".a-price .a-offscreen")
      (jsOr (tQ d "#priceblock_ourprice") (jsOr (tQ d "#priceblock_dealprice")
      (jsOr (tQ d ".apexPriceToPay .a-offscreen") (jsOr (tQ d "span.a-price-whole")
      (metaQ d "product:price:amount")))))))
    let im := jsOr c.im (jsOr (metaQ d "og:image") (jsOr (attrQ d "#landingImage" "data-old-hires")
      (jsOr (attrQ d "#landingImage" "src") (attrQ d "#imgTagWrapperId img" "src"))))
    ⟨pn, br, pr, im⟩
  else if strEndsWith host "flipkart.com" then
    let pn := jsOr c.pn (jsOr (tQ d "span.B_NuCI")
      (jsOr (metaQ d "og:title") (some d.titleText)))
    let br := jsOr c.br (jsOr (tQ d "span.G6XhRU") (some (d.rawText "._2whKao")))
    let pr := jsOrV c.pr (JsVal.ofStr (jsOr (tQ d "div._30jeq3._16Jk6d")
      (jsOr (some (d.rawText "._25b18c ._30jeq3")) (jsOr (some (d.rawText "div._30jeq3"))
      (metaQ d "product:price:amount")))))
    let im := jsOr c.im (jsOr (metaQ d "og:image")
      (jsOr (attrQ d "img._396cs4._2amPTt._3qGmMb" "src") (attrQ d "img._396cs4" "src")))
    ⟨pn, br, pr, im⟩
  else if strEndsWith host "myntra.com" then
    let joined := String.intercalate " "
      ([tQ d "h1.pdp-title", tQ d "h1.pdp-name"].filterMap id)
    let pn := jsOr c.pn (jsOr (some joined)
      (jsOr (metaQ d "og:title") (some d.titleText)))
    let br := jsOr c.br (tQ d "h1.pdp-title")
    let pr := jsOrV c.pr (JsVal.ofStr (jsOr (tQ d ".pdp-discounted-price")
      (jsOr (tQ d ".pdp-price") (jsOr (some (d.rawText "span.pdp-price"))
      (metaQ d "product:price:amount")))))
    let im := jsOr c.im (jsOr (metaQ d "og:image")
      (attrQ d ".image-grid-container img, .image-grid img" "src"))
    ⟨pn, br, pr, im⟩
  else if strEndsWith host "nykaa.com" then
    let pn := jsOr c.pn (jsOr (tQ d ".css-1gc4x7i") (jsOr (tQ d "h1.pdp-name")
      (jsOr (metaQ d "og:title") (some d.titleText))))
    let br := jsOr c.br (jsOr (tQ d ".css-1gc4x7i .brand-name")
      (jsOr (tQ d ".brand") (some (d.rawText ".product-brand"))))
    let pr := jsOrV c.pr (JsVal.ofStr (jsOr (tQ d ".css-1e9zbzk")
      (jsOr (tQ d ".product-price") (metaQ d "product:price:amount"))))
    let im := jsOr c.im (jsOr (metaQ d "og:image") (attrQ d ".product-image img" "src"))
    ⟨pn, br, pr, im⟩
  else if strEndsWith host "bigbasket.com" then
    let pn := jsOr c.pn (jsOr (tQ d ".Details___StyledH") (jsOr (tQ d "h1")
      (jsOr (metaQ d "og:title") (some d.titleText))))
    let br := jsOr c.br (jsOr (tQ d ".brand") (some (d.rawText ".manufacturer")))
    let pr := jsOrV c.pr (JsVal.ofStr (jsOr (tQ d ".Label-sc-15v1nk5-0")
      (jsOr (tQ d ".price") (metaQ d "product:price:amount"))))
    let im := jsOr c.im (jsOr (metaQ d "og:image") (attrQ d ".product-image img" "src"))
    ⟨pn, br, pr, im⟩
  else ⟨c.pn, c.br, c.pr, c.im⟩

/-- `extractFromHtml(html, finalUrl)`: JSON-LD product data first, then the
per-platform selector chains, then price normalization. Transcribed from
index.js lines 347-424 (`rating != null ? Number(rating) : null` is the
identity on the rationals modelling JSON numbers). -/
def extractFromHtml (d : Dom) (finalUrl : Url) : ProductRecord :=
  let host := strToLower finalUrl.hostname
  let v := jsonLdStep d.jsonld initVars
  let c := platformChains d host ⟨v.pn, v.br, v.pr, v.im⟩
  { platform := platformFromHost host
    url := finalUrl.href
    productName := c.pn
    brand := c.br
    price := normalizePrice c.pr
    currency := v.curr
    image := c.im
    rating := v.rat
    ratingCount := v.ratc }

/- ===== Browser extractor (`extractWithBrowser`, index.js 427-585) ===== -/

/-- The rendered page as the browser extractor reads it: the final URL after
navigation, the JSON-LD `Product` node found by `page.evaluate`, and the
`locator(...).first()` reads (`locText` is `textContent()` with its
`.catch(() => null)`, `locAttr` is `getAttribute`). The fingerprint profile,
settle delays and pointer movement (lines 433-495) affect no returned data
and are not modelled. -/
structure BrowserPage where
  finalUrl : Url
  prod : Option ProductNode
  locText : String → Option String
  locAttr : String → String → Option String

/-- A browser run: `chromium.launch`, `goto`, `waitFor...` and `evaluate`
either produce a rendered page or throw. -/
structure BrowserWorld where
  nav : Except String BrowserPage

/-- `x?.trim() || null` on a locator read. -/
def trimQ (x : Option String) : Option String :=
  normNull (x.map (fun s => String.mk (jsTrim s.data)))

/-- The JSON-LD step of the browser extractor (index.js lines 516-527):
direct assignments from the evaluated product node
(`rating = agg.ratingValue ?? null`, `ratingCount = ... ?? ... ?? null`). -/
def jsonLdStepBrowser (node? : Option ProductNode) (v : ExtractVars) : ExtractVars :=
  match node? with
  | none => v
  | some node =>
    let pn := normNull node.name
    let br := resolveBrand node.brand
    let im := resolveImage node.image
    let prCurr :=
      match node.offers with
      | none => (v.pr, v.curr)
      | some o => ((if o.price.truthy then o.price else JsVal.null),
                   jsOr o.priceCurrency v.curr)
    let ratPair :=
      match node.aggregateRating with
      | none => (v.rat, v.ratc)
      | some a => (a.ratingValue, a.ratingCount.orElse (fun _ => a.reviewCount))
    ⟨pn, br, prCurr.1, prCurr.2, im, ratPair.1, ratPair.2⟩

/-- The per-platform locator chains of the browser extractor
(index.js lines 529-569). -/
def browserChains (pg : BrowserPage) (finalHost : String) (c : ChainVars) : ChainVars :=
  if strEndsWith finalHost "amazon.in" then
    let pn := jsOr c.pn (trimQ (pg.locText "#productTitle, span#title"))
    let pn := amazonTitleFix pn
    let br := jsOr c.br (trimQ (pg.locText
      "#bylineInfo, a#bylineInfo, tr.po-brand td.a-span9 span, .po-brand .a-span9 .a-size-base"))
    let priceText := pg.locText
      ".a-price .a-offscreen, #priceblock_ourprice, #priceblock_dealprice, .apexPriceToPay .a-offscreen, span.a-price-whole"
    let pr := jsOrV c.pr (JsVal.ofStr (trimQ priceText))
    let im := jsOr c.im (pg.locAttr "#landingImage, #imgTagWrapperId img" "src")
    ⟨pn, br, pr, im⟩
  else if strEndsWith finalHost "flipkart.com" then
    let pn := jsOr c.pn (trimQ (pg.locText "span.B_NuCI, .B_NuCI"))
    let br := jsOr c.br (trimQ (pg.locText "span.G6XhRU, ._2whKao, .G6XhRU"))
    let priceText := pg.locText "div._30jeq3._16Jk6d, ._25b18c ._30jeq3, div._30jeq3, ._30jeq3"
    let pr := jsOrV c.pr (JsVal.ofStr (trimQ priceText))
    let im := jsOr c.im (pg.locAttr "img._396cs4._2amPTt._3qGmMb, img._396cs4, ._396cs4" "src")
    ⟨pn, br, pr, im⟩
  else if strEndsWith finalHost "myntra.com" then
    let t1 := pg.locText "h1.pdp-title, .pdp-title"
    let t2 := pg.locText "h1.pdp-name, .pdp-name"
    let joined := String.intercalate " " ([trimQ t1, trimQ t2].filterMap id)
    let pn := jsOr c.pn (normNull (some joined))
    let br := jsOr c.br (trimQ t1)
    let priceText := pg.locText ".pdp-discounted-price, .pdp-price, span.pdp-price"
    let pr := jsOrV c.pr (JsVal.ofStr (trimQ priceText))
    let im := jsOr c.im (pg.locAttr ".image-grid-container img, .image-grid img" "src")
    ⟨pn, br, pr, im⟩
  else if strEndsWith finalHost "nykaa.com" then
    let pn := jsOr c.pn (trimQ (pg.locText ".css-1gc4x7i, h1.pdp-name, h1"))
    let br := jsOr c.br (trimQ (pg.locText ".brand-name, .brand, .product-brand"))
    let priceText := pg.locText ".css-1e9zbzk, .product-price, .price"
    let pr := jsOrV c.pr (JsVal.ofStr (trimQ priceText))
    let im := jsOr c.im (pg.locAttr ".product-image img, img" "src")
    ⟨pn, br, pr, im⟩
  else if strEndsWith finalHost "bigbasket.com" then
    let pn := jsOr c.pn (trimQ (pg.locText ".Details___StyledH, h1"))
    let br := jsOr c.br (trimQ (pg.locText ".brand, .manufacturer"))
    let priceText := pg.locText ".Label-sc-15v1nk5-0, .price"
    let pr := jsOrV c.pr (JsVal.ofStr (trimQ priceText))
    let im := jsOr c.im (pg.locAttr ".product-image img, img" "src")
    ⟨pn, br, pr, im⟩
  else ⟨c.pn, c.br, c.pr, c.im⟩

/-- `extractWithBrowser(startUrl)` (index.js lines 427-585): navigate,
re-validate the final host against the allowlist, then mine the JSON-LD node
and the per-platform locator chains. Throws (`Except.error`) when navigation
throws or the final host is not allowed. -/
def extractWithBrowser (w : BrowserWorld) : Except String ProductRecord :=
  match w.nav with
  | .error e => .error e
  | .ok pg =>
    let finalHost := strToLower pg.finalUrl.hostname
    if !isAllowedHost finalHost then
      .error ("Final domain not allowed: " ++ finalHost)
    else
      let v := jsonLdStepBrowser pg.prod initVars
      let c := browserChains pg finalHost ⟨v.pn, v.br, v.pr, v.im⟩
      .ok { platform := platformFromHost finalHost
            url := pg.finalUrl.href
            productName := c.pn
            brand := c.br
            price := normalizePrice c.pr
            currency := v.curr
            image := c.im
            rating := v.rat
            ratingCount := v.ratc }

/- ===== Strategy controller (`/api/product-info`, index.js 752-813) ===== -/

/-- The bot-wall signature regex
`/robot|captcha|unusual\s+traffic|automated\s+access/i` tried at one
position of the lowercased body. -/
def botAt (cs : List Char) : Bool :=
  startsWithL "robot".data cs || startsWithL "captcha".data cs ||
    phraseWS "unusual".data "traffic".data cs ||
    phraseWS "automated".data "access".data cs
where
  /-- `w1\s+w2` at the current position. -/
  phraseWS (w1 w2 cs : List Char) : Bool :=
    match dropLit w1 cs with
    | none => false
    | some r =>
      let (ws, r2) := r.span isWS
      !ws.isEmpty && startsWithL w2 r2

/-- `/robot|captcha|unusual\s+traffic|automated\s+access/i.test(html)`
(index.js line 782). -/
def botSignature (body : List Char) : Bool :=
  anySuffix botAt (body.map Char.toLower)

/-- The result of `fetchWithTimeout(inputUrl, ...)`: HTTP status-level
fields plus the response body (the fields the route reads). -/
structure FetchResp where
  ok : Bool
  status : Nat
  respUrl : Option Url
  body : String

/-- The world one `/api/product-info` request runs against: the parsed input
URL, the requested mode string, the fetch outcome (a network/timeout error
or a response), the parsed-document facts of the fetched body, the browser
world, and the sandbox fixture for this URL (the `SANDBOX` table lookup of
index.js lines 276-344, abstracted as its result). -/
structure ExtractWorld where
  u0 : Url
  mode : String
  fetch : Except String FetchResp
  dom : Dom
  browser : BrowserWorld
  sandboxFixture : Option ProductRecord

/-- `resp.url || inputUrl` followed by `new URL(...)` (index.js 778-779). -/
def finalUrlOf (w : ExtractWorld) (resp : FetchResp) : Url :=
  match resp.respUrl with
  | some u => u
  | none => w.u0

/-- `tryHtml` (index.js lines 775-787): fetch, check `resp.ok`, re-validate
the post-redirect host, soft-fail (`none`) on a bot-wall signature, else
extract. Network errors and guard violations are thrown (`Except.error`). -/
def tryHtml (w : ExtractWorld) : Except String (Option ProductRecord) :=
  match w.fetch with
  | .error e => .error e
  | .ok resp =>
    if !resp.ok then .error ("Upstream returned " ++ toString resp.status)
    else
      let u := finalUrlOf w resp
      if !isAllowedHost u.hostname then
        .error ("Final domain not allowed: " ++ u.hostname)
      else if botSignature resp.body.data then .ok none
      else .ok (some (extractFromHtml w.dom u))

/-- A structured route response body. -/
inductive RespBody where
  | errMsg (m : String)
  | product (r : ProductRecord)
deriving DecidableEq

/-- An HTTP response: status code plus body. -/
structure HttpResponse where
  status : Nat
  body : RespBody
deriving DecidableEq

/-- `4xx` statuses, the client-error class. -/
def isClientError (n : Nat) : Bool := 400 ≤ n && n < 500

/-- The browser tier of AUTO mode (index.js lines 804-806): run the browser
extractor; a throw becomes the generic 500 handler, an incomplete record the
451 failure. -/
def autoBrowserTier (w : ExtractWorld) : HttpResponse :=
  match extractWithBrowser w.browser with
  | .error e => ⟨500, .errMsg e⟩
  | .ok d2 =>
    if !minimalOk d2 then ⟨451, .errMsg "Could not extract product details (auto)."⟩
    else ⟨200, .product d2⟩

/-- The `/api/product-info` handler (index.js lines 752-813): initial
allowlist gate, then the sandbox / html / browser / auto (default) branches;
any exception reaches the catch handler and returns status 500 with the
error message. -/
def productInfo (w : ExtractWorld) : HttpResponse :=
  if !isAllowedHost w.u0.hostname then
    ⟨400, .errMsg ("Domain not allowed: " ++ w.u0.hostname)⟩
  else if w.mode = "sandbox" then
    match w.sandboxFixture with
    | none => ⟨404, .errMsg "Sandbox has no fixture for this URL/ID. Add a mock in SANDBOX map."⟩
    | some data => ⟨200, .product data⟩
  else if w.mode = "html" then
    match tryHtml w with
    | .error e => ⟨500, .errMsg e⟩
    | .ok none => ⟨451, .errMsg "Extraction incomplete (html)."⟩
    | .ok (some data) =>
      if !minimalOk data then ⟨451, .errMsg "Extraction incomplete (html)."⟩
      else ⟨200, .product data⟩
  else if w.mode = "browser" then
    match extractWithBrowser w.browser with
    | .error e => ⟨500, .errMsg e⟩
    | .ok data =>
      if !minimalOk data then ⟨451, .errMsg "Extraction incomplete (browser)."⟩
      else ⟨200, .product data⟩
  else
    -- AUTO (index.js lines 801-807)
    match tryHtml w with
    | .error e => ⟨500, .errMsg e⟩
    | .ok none => autoBrowserTier w
    | .ok (some data) =>
      if !minimalOk data then autoBrowserTier w
      else ⟨200, .product data⟩

/- ===== OCR provider layer (index.js 603-749) ===== -/

/-- An OCR engine result: `{text, confidence}` with confidence a 0-100
scalar. -/
structure OcrOut where
  text : String
  confidence : ℚ
deriving DecidableEq

/-- Process-wide provider configuration (`visionClient`/`genAI` nullness,
index.js lines 59-74). -/
structure OcrConfig where
  visionConfigured : Bool
  geminiConfigured : Bool

/-- The world one OCR call runs against: the config plus the outcomes of the
external engines. `visionApi` is `documentTextDetection` (text already
trimmed, confidence averaged as in `avgConfidenceVision`); `tess` is
`runTesseract`'s two-pass result; `geminiImage` is the generative
image-read response text (none models an undefined response);
`geminiClean` is the generative cleanup response for a given RAW_OCR text. -/
structure OcrWorld where
  cfg : OcrConfig
  visionApi : Except String OcrOut
  tess : Except String OcrOut
  geminiImage : Except String (Option String)
  geminiClean : String → Except String (Option String)

/-- `runVision` (index.js lines 634-650): throw when unconfigured, rewrite
billing/permission errors, else return the document-text result. -/
def runVision (w : OcrWorld) : Except String OcrOut :=
  if !w.cfg.visionConfigured then
    .error "Google Vision isn't configured (GOOGLE_APPLICATION_CREDENTIALS not set)."
  else
    match w.visionApi with
    | .ok r => .ok r
    | .error m =>
      if ciContainsL "billing".data m.data || ciContainsL "permission_denied".data m.data then
        .error "Google Vision requires billing to be enabled on your GCP project."
      else .error m

/-- Strip every fenced block: the global lazy regex replace
"triple-backtick ... triple-backtick" → `""`; an unpaired opening fence
matches nothing. -/
def splitAtLit (lit : List Char) : List Char → Option (List Char × List Char)
  | [] => (dropLit lit []).map (fun r => (([] : List Char), r))
  | c :: rest =>
    match dropLit lit (c :: rest) with
    | some r => some ([], r)
    | none => (splitAtLit lit rest).map (fun p => (c :: p.1, p.2))

/-- Fuel-bounded fence removal (fuel: the input length suffices since every
removal consumes at least the two fences). -/
def stripFencesGo (fence : List Char) : Nat → List Char → List Char
  | 0, cs => cs
  | fuel + 1, cs =>
    match splitAtLit fence cs with
    | none => cs
    | some (pre, rest1) =>
      match splitAtLit fence rest1 with
      | none => cs
      | some (_, rest2) => pre ++ stripFencesGo fence fuel rest2

/-- `text.replace(/```[\s\S]*?```/g, "")`. -/
def stripFences (cs : List Char) : List Char :=
  stripFencesGo "```".data cs.length cs

/-- `runGeminiOCR` (index.js lines 652-666): throw when unconfigured, else
trim the model response, strip fenced blocks, trim again, and report
confidence 0 by convention. -/
def runGeminiOCR (w : OcrWorld) : Except String OcrOut :=
  if !w.cfg.geminiConfigured then .error "Gemini API not configured (GEMINI_API_KEY)"
  else
    match w.geminiImage with
    | .error e => .error e
    | .ok resp =>
      let text := match resp with
        | none => ""
        | some s => String.mk (jsTrim s.data)
      let cleaned := String.mk (jsTrim (stripFences text.data))
      .ok { text := cleaned, confidence := 0 }

/-- The base layer `runHybrid` settles on: Vision when it succeeds, else the
Tesseract two-pass run (the `catch` of index.js lines 671-676). -/
def hybridBase (w : OcrWorld) : Except String OcrOut :=
  match runVision w with
  | .ok b => .ok b
  | .error _ => w.tess

/-- `runHybrid` (index.js lines 668-686): base layer, then (only when the
generative client is configured) the cleanup pass whose falsy response keeps
the base text; the returned confidence is always the base layer's. -/
def runHybrid (w : OcrWorld) : Except String OcrOut :=
  match hybridBase w with
  | .error e => .error e
  | .ok base =>
    if !w.cfg.geminiConfigured then .ok base
    else
      match w.geminiClean base.text with
      | .error e => .error e
      | .ok resp =>
        let cleaned := match resp with
          | none => base.text
          | some s =>
            let t := String.mk (jsTrim s.data)
            if t = "" then base.text else t
        .ok { text := cleaned, confidence := base.confidence }

/-- `pickProvider(explicit, availableEnvOrder)` (index.js lines 689-702):
a non-empty explicit request is returned unchecked; otherwise the first
configured provider of the env order, else gemini when configured, else
tesseract. -/
def pickProvider (explicit : String) (envOrder : List String) (cfg : OcrConfig) : String :=
  if explicit ≠ "" then explicit
  else
    let ok : String → Bool := fun p =>
      (p == "gemini" && cfg.geminiConfigured) ||
      (p == "vision" && cfg.visionConfigured) ||
      p == "tesseract" || p == "hybrid"
    match envOrder.find? ok with
    | some p => p
    | none => if cfg.geminiConfigured then "gemini" else "tesseract"

/-- `fullText.split(/\r?\n/)` (line separators; a lone `\r` is content). -/
def splitLinesJS : List Char → List (List Char)
  | [] => [[]]
  | '\r' :: '\n' :: rest => [] :: splitLinesJS rest
  | '\n' :: rest => [] :: splitLinesJS rest
  | c :: rest =>
    match splitLinesJS rest with
    | l :: ls => (c :: l) :: ls
    | [] => [[c]]

/-- The `/api/ocr` success payload (index.js lines 737-744); the wall-clock
`ms` field is not modelled. -/
structure OcrPayload where
  provider : String
  confidence : ℚ
  extractedText : List String
  detectedFields : DetectedFieldSet
  fast : Bool
deriving DecidableEq

/-- An `/api/ocr` route response. -/
inductive OcrResp where
  | err (status : Nat) (m : String)
  | ok (p : OcrPayload)
deriving DecidableEq

/-- The request-shape facts of one `/api/ocr` call: the (lowercased)
requested provider string, whether a file buffer or a fetchable url was
supplied, and the fast flag. -/
structure OcrRequest where
  providerQuery : String
  hasFile : Bool
  hasUrl : Bool
  urlFetchOk : Bool
  fast : Bool

/-- The `/api/ocr` handler (index.js lines 705-749): pick the provider, check
an image source is present, preprocess (the sharp pipeline is an opaque
image-to-image step and cannot fail on the inputs modelled), dispatch on the
provider, and assemble the payload; any engine throw reaches the catch and
becomes a 500 error body. -/
def ocrRoute (req : OcrRequest) (envOrder : List String) (w : OcrWorld) : OcrResp :=
  let provider := pickProvider req.providerQuery envOrder w.cfg
  if !req.hasFile && !req.hasUrl then .err 400 "Provide an image file or url"
  else if !req.hasFile && req.hasUrl && !req.urlFetchOk then
    .err 400 "Could not fetch image URL"
  else
    let out : Except String OcrOut :=
      if provider = "vision" then runVision w
      else if provider = "gemini" then runGeminiOCR w
      else if provider = "hybrid" then runHybrid w
      else w.tess
    match out with
    | .error e => .err 500 e
    | .ok o =>
      let fullText := o.text
      .ok { provider := provider
            confidence := o.confidence
            extractedText :=
              if fullText = "" then []
              else ((splitLinesJS fullText.data).filter (fun l => !l.isEmpty)).map String.mk
            detectedFields := parseFields fullText
            fast := req.fast }

/- ===== Barcode lookup route (index.js 1675-1707) ===== -/

/-- `/^\d{8,14}$/.test(code)`: all digits, length between 8 and 14 (the
anchored bounded repetition). -/
def barcodeValid (code : List Char) : Bool :=
  code.all isDigitC && 8 ≤ code.length && code.length ≤ 14

/-- A barcode route outcome: the response status, its error body (if any)
and whether the catalog lookup (`lookupBarcodeInfo`, which itself never
throws: its catch returns a found:false record, index.js lines 230-237) was
performed. -/
structure BarcodeOutcome where
  status : Nat
  errorMsg : Option String
  lookedUp : Bool
deriving DecidableEq

/-- The `/api/barcode/lookup/:barcode` handler (index.js lines 1675-1707):
reject a malformed code with a 400 `Invalid barcode format` before any
lookup; otherwise perform the catalog lookup and answer it with the default
200 status. -/
def barcodeLookupRoute (code : String) : BarcodeOutcome :=
  if !barcodeValid code.data then
    { status := 400, errorMsg := some "Invalid barcode format", lookedUp := false }
  else
    { status := 200, errorMsg := none, lookedUp := true }

/- ===== Shared lemmas ===== -/

theorem jsOr_some_isSome (a : Option String) (s : String) :
    (jsOr a (some s)).isSome = true := by
  cases a with
  | none => simp [jsOr, truthy]
  | some x =>
    simp only [jsOr, truthy]
    split <;> simp

theorem jsonLdStep_curr_isSome (n : Option ProductNode) :
    ((jsonLdStep n initVars).curr).isSome = true := by
  cases n with
  | none => rfl
  | some node =>
    cases h : node.offers with
    | none => simp [jsonLdStep, h, initVars]
    | some o => simp [jsonLdStep, h, initVars, jsOr_some_isSome]

theorem jsonLdStepBrowser_curr_isSome (n : Option ProductNode) :
    ((jsonLdStepBrowser n initVars).curr).isSome = true := by
  cases n with
  | none => rfl
  | some node =>
    cases h : node.offers with
    | none => simp [jsonLdStepBrowser, h, initVars]
    | some o => simp [jsonLdStepBrowser, h, initVars, jsOr_some_isSome]

/-- A document with no selector hits, no metadata and no JSON-LD node. -/
def emptyDom : Dom :=
  { tsel := fun _ => ""
    attrOf := fun _ _ => none
    metaOf := fun _ => none
    rawText := fun _ => ""
    titleText := ""
    jsonld := none }

/-- An allowed host that has no per-platform selector chain. -/
def grofersUrl : Url :=
  { hostname := "shop.grofers.com", href := "https://shop.grofers.com/p/1" }

/- ===== C10 ===== -/

/-- C10: every `ProductRecord` an extractor returns has a non-null currency:
it starts as `"INR"` and is only ever overwritten by a structured-data
offer's `priceCurrency`; by contrast, on a document with no product data
every other data field of the record is null while currency is still
`"INR"`. -/
theorem currency_never_null :
    (∀ (d : Dom) (u : Url), ((extractFromHtml d u).currency).isSome = true)
    ∧ (∀ (w : BrowserWorld) (r : ProductRecord),
        extractWithBrowser w = .ok r → r.currency.isSome = true)
    ∧ ((extractFromHtml emptyDom grofersUrl).productName = none ∧
       (extractFromHtml emptyDom grofersUrl).brand = none ∧
       (extractFromHtml emptyDom grofersUrl).price = none ∧
       (extractFromHtml emptyDom grofersUrl).image = none ∧
       (extractFromHtml emptyDom grofersUrl).rating = none ∧
       (extractFromHtml emptyDom grofersUrl).ratingCount = none ∧
       (extractFromHtml emptyDom grofersUrl).currency = some "INR") := by
  refine ⟨fun d u => ?_, fun w r h => ?_, by decide, by decide, by decide,
    by decide, by decide, by decide, by decide⟩
  · show ((jsonLdStep d.jsonld initVars).curr).isSome = true
    exact jsonLdStep_curr_isSome d.jsonld
  · unfold extractWithBrowser at h
    cases hnav : w.nav with
    | error e => rw [hnav] at h; cases h
    | ok pg =>
      rw [hnav] at h
      dsimp only at h
      cases hall : isAllowedHost (strToLower pg.finalUrl.hostname) with
      | false =>
        rw [hall] at h
        rw [if_pos (by simp)] at h
        cases h
      | true =>
        rw [hall] at h
        rw [if_neg (by simp)] at h
        injection h with h
        subst h
        exact jsonLdStepBrowser_curr_isSome pg.prod

/-- A concrete successful browser run for the C10 witness. -/
def cexBrowserPage : BrowserPage :=
  { finalUrl := { hostname := "www.amazon.in", href := "https://www.amazon.in/dp/B07WNS52H2" }
    prod := some
      { name := some "NAKPRO Creatine"
        brand := .str "NAKPRO"
        image := .absent
        offers := some { price := .num 499, priceCurrency := none }
        aggregateRating := none }
    locText := fun _ => none
    locAttr := fun _ _ => none }

def cexBrowserWorld : BrowserWorld := { nav := .ok cexBrowserPage }

def cexBrowserRec : ProductRecord :=
  { platform := "Amazon", url := "https://www.amazon.in/dp/B07WNS52H2"
    productName := some "NAKPRO Creatine", brand := some "NAKPRO"
    price := some 499, currency := some "INR", image := none
    rating := none, ratingCount := none }

/-- C10 witness: the browser conjunct applied at a concrete successful run. -/
theorem currency_never_null_witness :
    extractWithBrowser cexBrowserWorld = .ok cexBrowserRec ∧
      cexBrowserRec.currency.isSome = true :=
  ⟨rfl, currency_never_null.2.1 cexBrowserWorld cexBrowserRec rfl⟩

/- ===== C8 ===== -/

theorem barcodeValid_iff (l : List Char) :
    barcodeValid l = true ↔
      ((∀ c ∈ l, c.isDigit = true) ∧ 8 ≤ l.length ∧ l.length ≤ 14) := by
  simp [barcodeValid, List.all_eq_true, isDigitC, and_assoc]

/-- C8: the barcode lookup endpoint performs the catalog lookup exactly for
code strings matching `^\d{8,14}$` (all digits, length 8 to 14); anything
else — a 7-digit string in particular — is answered with the 400
`Invalid barcode format` client error without any lookup, while 8- and
14-digit strings pass validation and proceed to the lookup. -/
theorem barcode_validation_spec :
    (∀ code : String,
      (barcodeLookupRoute code).lookedUp = true ↔
        ((∀ c ∈ code.data, c.isDigit = true) ∧ 8 ≤ code.data.length ∧ code.data.length ≤ 14))
    ∧ (∀ code : String, barcodeValid code.data = false →
        barcodeLookupRoute code =
          { status := 400, errorMsg := some "Invalid barcode format", lookedUp := false })
    ∧ isClientError 400 = true
    ∧ barcodeLookupRoute "1234567" =
        { status := 400, errorMsg := some "Invalid barcode format", lookedUp := false }
    ∧ barcodeLookupRoute "12345678" = { status := 200, errorMsg := none, lookedUp := true }
    ∧ barcodeLookupRoute "12345678901234" =
        { status := 200, errorMsg := none, lookedUp := true } := by
  refine ⟨fun code => ?_, fun code h => ?_, by decide, by decide, by decide, by decide⟩
  · rw [← barcodeValid_iff]
    cases hv : barcodeValid code.data with
    | false => simp [barcodeLookupRoute, hv]
    | true => simp [barcodeLookupRoute, hv]
  · simp [barcodeLookupRoute, h]

/-- C8 witness: the rejection conjunct applied at the 7-digit boundary. -/
theorem barcode_validation_spec_witness :
    barcodeLookupRoute "1234567" =
      { status := 400, errorMsg := some "Invalid barcode format", lookedUp := false } :=
  barcode_validation_spec.2.1 "1234567" (by decide)

/- ===== C6 ===== -/

/-- C6: the hybrid OCR provider runs Vision first (a configured, successful
Vision call is the base layer); if Vision throws — including the
unconfigured case — it silently substitutes the Tesseract two-pass run as
its base; the generative cleanup is skipped entirely when the generative
client is unconfigured; and every successful hybrid result carries exactly
the base layer's confidence. -/
theorem runHybrid_base_confidence :
    (∀ (w : OcrWorld) (b : OcrOut), w.cfg.visionConfigured = true →
        w.visionApi = .ok b → hybridBase w = .ok b)
    ∧ (∀ (w : OcrWorld) (e : String), runVision w = .error e → hybridBase w = w.tess)
    ∧ (∀ (w : OcrWorld) (b : OcrOut), w.cfg.geminiConfigured = false →
        hybridBase w = .ok b → runHybrid w = .ok b)
    ∧ (∀ (w : OcrWorld) (r : OcrOut), runHybrid w = .ok r →
        ∃ b, hybridBase w = .ok b ∧ r.confidence = b.confidence) := by
  refine ⟨fun w b hcfg hapi => ?_, fun w e h => ?_, fun w b hcfg hb => ?_,
    fun w r h => ?_⟩
  · simp [hybridBase, runVision, hcfg, hapi]
  · simp [hybridBase, h]
  · simp [runHybrid, hb, hcfg]
  · unfold runHybrid at h
    cases hb : hybridBase w with
    | error e => rw [hb] at h; cases h
    | ok base =>
      rw [hb] at h
      dsimp only at h
      cases hg : w.cfg.geminiConfigured with
      | false =>
        rw [hg] at h
        rw [if_pos (by simp)] at h
        injection h with h
        exact ⟨base, rfl, by rw [← h]⟩
      | true =>
        rw [hg] at h
        rw [if_neg (by simp)] at h
        cases hc : w.geminiClean base.text with
        | error e => rw [hc] at h; cases h
        | ok resp =>
          rw [hc] at h
          dsimp only at h
          injection h with h
          exact ⟨base, rfl, by rw [← h]⟩

/-- A concrete hybrid run (Vision unconfigured, cleanup active) for C6. -/
def cexOcrWorld : OcrWorld :=
  { cfg := { visionConfigured := false, geminiConfigured := true }
    visionApi := .error "no vision"
    tess := .ok { text := "RAW", confidence := 55 }
    geminiImage := .error "unused"
    geminiClean := fun _ => .ok (some "CLEANED") }

/-- C6 witness: the confidence conjunct applied at the concrete run. -/
theorem runHybrid_base_confidence_witness :
    ∃ b, hybridBase cexOcrWorld = .ok b ∧
      (OcrOut.mk "CLEANED" 55).confidence = b.confidence :=
  runHybrid_base_confidence.2.2.2 cexOcrWorld ⟨"CLEANED", 55⟩ rfl

/- ===== C9 ===== -/

/-- C9: a non-empty explicitly requested provider string is returned by
`pickProvider` unchanged, with no availability check (the env-order
filtering applies only when no explicit provider is requested); hence
explicitly requesting `vision` or `gemini` without credentials makes the
OCR route fail with that provider's configuration error instead of falling
back to another provider. -/
theorem pickProvider_explicit_spec :
    (∀ (e : String) (env : List String) (cfg : OcrConfig), e ≠ "" →
        pickProvider e env cfg = e)
    ∧ (∀ (req : OcrRequest) (env : List String) (w : OcrWorld),
        req.providerQuery = "vision" → w.cfg.visionConfigured = false →
        req.hasFile = true →
        ocrRoute req env w =
          .err 500 "Google Vision isn't configured (GOOGLE_APPLICATION_CREDENTIALS not set).")
    ∧ (∀ (req : OcrRequest) (env : List String) (w : OcrWorld),
        req.providerQuery = "gemini" → w.cfg.geminiConfigured = false →
        req.hasFile = true →
        ocrRoute req env w = .err 500 "Gemini API not configured (GEMINI_API_KEY)") := by
  refine ⟨fun e env cfg h => by simp [pickProvider, h],
    fun req env w h1 h2 h3 => ?_, fun req env w h1 h2 h3 => ?_⟩
  · simp [ocrRoute, pickProvider, h1, h2, h3, runVision]
  · simp [ocrRoute, pickProvider, h1, h2, h3, runGeminiOCR]

/-- A concrete explicit-vision request without credentials for C9. -/
def cexOcrReq : OcrRequest :=
  { providerQuery := "vision", hasFile := true, hasUrl := false
    urlFetchOk := false, fast := false }

def cexOcrWorldNoCreds : OcrWorld :=
  { cfg := { visionConfigured := false, geminiConfigured := false }
    visionApi := .error "x"
    tess := .ok { text := "", confidence := 0 }
    geminiImage := .error "x"
    geminiClean := fun _ => .error "x" }

/-- C9 witness. -/
theorem pickProvider_explicit_spec_witness :
    ocrRoute cexOcrReq [] cexOcrWorldNoCreds =
      .err 500 "Google Vision isn't configured (GOOGLE_APPLICATION_CREDENTIALS not set)." :=
  pickProvider_explicit_spec.2.1 cexOcrReq [] cexOcrWorldNoCreds rfl rfl rfl

/- ===== C4 ===== -/

/-- C4: `parseFields` is total over its seven fixed slots: for every input
(the empty string included) each slot is present, its confidence always
equals the field's hard-coded weight (80/85/85/70/70/70/65), `compliant` is
true exactly when the field's pattern matched, and a missed pattern yields
exactly `{text := null, confidence := weight, compliant := false}`. -/
theorem parseFields_total_invariant :
    (∀ t : String,
      ((parseFields t).productName.confidence = 80 ∧
       (parseFields t).netQuantity.confidence = 85 ∧
       (parseFields t).mrp.confidence = 85 ∧
       (parseFields t).manufacturer.confidence = 70 ∧
       (parseFields t).countryOfOrigin.confidence = 70 ∧
       (parseFields t).consumerCare.confidence = 70 ∧
       (parseFields t).bestBefore.confidence = 65) ∧
      ((parseFields t).productName.compliant = (scan matchNameAt (normalizeL t.data)).isSome ∧
       (parseFields t).netQuantity.compliant = (scan matchNetAt (normalizeL t.data)).isSome ∧
       (parseFields t).mrp.compliant = (scan matchMrpAt (normalizeL t.data)).isSome ∧
       (parseFields t).manufacturer.compliant = (scan matchManuAt (normalizeL t.data)).isSome ∧
       (parseFields t).countryOfOrigin.compliant = (scan matchOriginAt (normalizeL t.data)).isSome ∧
       (parseFields t).consumerCare.compliant = (scan matchCareAt (normalizeL t.data)).isSome ∧
       (parseFields t).bestBefore.compliant = (scan matchBestAt (normalizeL t.data)).isSome) ∧
      (((parseFields t).productName.compliant = false →
          (parseFields t).productName = ⟨none, 80, false⟩) ∧
       ((parseFields t).netQuantity.compliant = false →
          (parseFields t).netQuantity = ⟨none, 85, false⟩) ∧
       ((parseFields t).mrp.compliant = false →
          (parseFields t).mrp = ⟨none, 85, false⟩) ∧
       ((parseFields t).manufacturer.compliant = false →
          (parseFields t).manufacturer = ⟨none, 70, false⟩) ∧
       ((parseFields t).countryOfOrigin.compliant = false →
          (parseFields t).countryOfOrigin = ⟨none, 70, false⟩) ∧
       ((parseFields t).consumerCare.compliant = false →
          (parseFields t).consumerCare = ⟨none, 70, false⟩) ∧
       ((parseFields t).bestBefore.compliant = false →
          (parseFields t).bestBefore = ⟨none, 65, false⟩)))
    ∧ parseFields "" =
        ⟨⟨none, 80, false⟩, ⟨none, 85, false⟩, ⟨none, 85, false⟩, ⟨none, 70, false⟩,
         ⟨none, 70, false⟩, ⟨none, 70, false⟩, ⟨none, 65, false⟩⟩ := by
  refine ⟨fun t => ⟨⟨rfl, rfl, rfl, rfl, rfl, rfl, rfl⟩,
    ⟨rfl, rfl, rfl, rfl, rfl, rfl, rfl⟩, ?_, ?_, ?_, ?_, ?_, ?_, ?_⟩, by decide⟩
  · intro h
    cases hm : scan matchNameAt (normalizeL t.data) with
    | some g => exact absurd h (by simp [parseFields, hm])
    | none => simp [parseFields, hm, groupText]
  · intro h
    cases hm : scan matchNetAt (normalizeL t.data) with
    | some g => exact absurd h (by simp [parseFields, hm])
    | none => simp [parseFields, hm, groupText]
  · intro h
    cases hm : scan matchMrpAt (normalizeL t.data) with
    | some g => exact absurd h (by simp [parseFields, hm])
    | none => simp [parseFields, hm, groupText]
  · intro h
    cases hm : scan matchManuAt (normalizeL t.data) with
    | some g => exact absurd h (by simp [parseFields, hm])
    | none => simp [parseFields, hm, groupText]
  · intro h
    cases hm : scan matchOriginAt (normalizeL t.data) with
    | some g => exact absurd h (by simp [parseFields, hm])
    | none => simp [parseFields, hm, groupText]
  · intro h
    cases hm : scan matchCareAt (normalizeL t.data) with
    | some g => exact absurd h (by simp [parseFields, hm])
    | none => simp [parseFields, hm, groupText]
  · intro h
    cases hm : scan matchBestAt (normalizeL t.data) with
    | some g => exact absurd h (by simp [parseFields, hm])
    | none => simp [parseFields, hm, groupText]

/-- C4 witness: the missed-pattern conjunct for the MRP slot at a concrete
input whose MRP pattern does not match. -/
theorem parseFields_total_invariant_witness :
    (parseFields "COUNTRY OF ORIGIN INDIA").mrp = ⟨none, 85, false⟩ :=
  ((parseFields_total_invariant.1 "COUNTRY OF ORIGIN INDIA").2.2).2.2.1 (by decide)

/- ===== List matching lemmas ===== -/

theorem dropLit_append (n r : List Char) : dropLit n (n ++ r) = some r := by
  induction n with
  | nil => rfl
  | cons c cs ih => simp [dropLit, ih]

theorem startsWithL_append (n r : List Char) : startsWithL n (n ++ r) = true := by
  induction n with
  | nil => rfl
  | cons c cs ih => simp [startsWithL, ih]

theorem startsWithL_iff (n s : List Char) :
    startsWithL n s = true ↔ ∃ r, s = n ++ r := by
  induction n generalizing s with
  | nil => simp [startsWithL]
  | cons a ns ih =>
    cases s with
    | nil => simp [startsWithL]
    | cons c cs =>
      simp only [startsWithL, Bool.and_eq_true, beq_iff_eq, ih]
      constructor
      · rintro ⟨rfl, r, rfl⟩
        exact ⟨r, rfl⟩
      · rintro ⟨r, h⟩
        simp only [List.cons_append, List.cons.injEq] at h
        exact ⟨h.1.symm, r, h.2⟩

theorem anySuffix_mono (f g : List Char → Bool) (hfg : ∀ s, f s = true → g s = true)
    (l : List Char) (h : anySuffix f l = true) : anySuffix g l = true := by
  induction l with
  | nil => exact hfg [] h
  | cons c cs ih =>
    simp only [anySuffix, Bool.or_eq_true] at h ⊢
    rcases h with h | h
    · exact Or.inl (hfg _ h)
    · exact Or.inr (ih h)

theorem scan_isSome_of_suffix {α : Type} (f : List Char → Option α) (s l : List Char)
    (v : α) (hf : f s = some v) (hsuf : s <:+ l) : (scan f l).isSome = true := by
  induction l with
  | nil =>
    rw [List.suffix_nil.mp hsuf] at hf
    simp [scan, hf]
  | cons c cs ih =>
    rcases List.suffix_cons_iff.mp hsuf with h | h
    · subst h
      simp [scan, hf]
    · cases hfc : f (c :: cs) with
      | some r => simp [scan, hfc]
      | none => simpa [scan, hfc] using ih h

/- ===== C5 ===== -/

theorem botAt_of_captcha (s : List Char) (h : startsWithL "captcha".data s = true) :
    botAt s = true := by
  simp [botAt, h]

theorem botAt_of_unusual (s : List Char)
    (h : startsWithL "unusual traffic".data s = true) : botAt s = true := by
  rcases (startsWithL_iff _ _).mp h with ⟨r, rfl⟩
  rw [show "unusual traffic".data = "unusual".data ++ ' ' :: "traffic".data by decide]
  rw [List.append_assoc]
  simp +decide [botAt, botAt.phraseWS, dropLit, List.span, List.span.loop,
    isWS, startsWithL]

theorem botAt_of_automated (s : List Char)
    (h : startsWithL "automated access".data s = true) : botAt s = true := by
  rcases (startsWithL_iff _ _).mp h with ⟨r, rfl⟩
  rw [show "automated access".data = "automated".data ++ ' ' :: "access".data by decide]
  rw [List.append_assoc]
  simp +decide [botAt, botAt.phraseWS, dropLit, List.span, List.span.loop,
    isWS, startsWithL]

theorem botSignature_of_ciContains (body : List Char)
    (h : ciContainsL "captcha".data body = true ∨
         ciContainsL "unusual traffic".data body = true ∨
         ciContainsL "automated access".data body = true) :
    botSignature body = true := by
  unfold botSignature
  unfold ciContainsL containsL at h
  rcases h with h | h | h
  · refine anySuffix_mono _ _ (fun s hs => ?_) _ h
    rw [show ("captcha".data.map Char.toLower) = "captcha".data by decide] at hs
    exact botAt_of_captcha s hs
  · refine anySuffix_mono _ _ (fun s hs => ?_) _ h
    rw [show ("unusual traffic".data.map Char.toLower) = "unusual traffic".data by decide] at hs
    exact botAt_of_unusual s hs
  · refine anySuffix_mono _ _ (fun s hs => ?_) _ h
    rw [show ("automated access".data.map Char.toLower) = "automated access".data by decide] at hs
    exact botAt_of_automated s hs

/-- C5: when the fetched body contains (case-insensitively) one of the
bot-challenge signature substrings — "captcha", "unusual traffic" or
"automated access" — the HTML path soft-fails: `tryHtml` returns null
(`Except.ok none`) instead of throwing, and in auto mode the request is then
answered by the browser tier. -/
theorem bot_signature_soft_null :
    (∀ (w : ExtractWorld) (resp : FetchResp), w.fetch = .ok resp → resp.ok = true →
      isAllowedHost (finalUrlOf w resp).hostname = true →
      (ciContainsL "captcha".data resp.body.data = true ∨
       ciContainsL "unusual traffic".data resp.body.data = true ∨
       ciContainsL "automated access".data resp.body.data = true) →
      tryHtml w = .ok none)
    ∧ (∀ (w : ExtractWorld) (resp : FetchResp), isAllowedHost w.u0.hostname = true →
      w.mode = "auto" → w.fetch = .ok resp → resp.ok = true →
      isAllowedHost (finalUrlOf w resp).hostname = true →
      (ciContainsL "captcha".data resp.body.data = true ∨
       ciContainsL "unusual traffic".data resp.body.data = true ∨
       ciContainsL "automated access".data resp.body.data = true) →
      productInfo w = autoBrowserTier w) := by
  have core : ∀ (w : ExtractWorld) (resp : FetchResp), w.fetch = .ok resp → resp.ok = true →
      isAllowedHost (finalUrlOf w resp).hostname = true →
      (ciContainsL "captcha".data resp.body.data = true ∨
       ciContainsL "unusual traffic".data resp.body.data = true ∨
       ciContainsL "automated access".data resp.body.data = true) →
      tryHtml w = .ok none := by
    intro w resp hf hok hall hci
    unfold tryHtml
    rw [hf]
    dsimp only
    rw [hok]
    rw [if_neg (by simp)]
    rw [hall]
    rw [if_neg (by simp)]
    rw [botSignature_of_ciContains resp.body.data hci]
    simp
  refine ⟨core, fun w resp h0 hmode hf hok hall hci => ?_⟩
  have hnull := core w resp hf hok hall hci
  unfold productInfo
  rw [h0, hmode]
  rw [if_neg (by simp)]
  rw [if_neg (by decide), if_neg (by decide), if_neg (by decide)]
  rw [hnull]

/-- A concrete bot-walled fetch for the C5 witness. -/
def cexBotWorld : ExtractWorld :=
  { u0 := { hostname := "www.amazon.in", href := "https://www.amazon.in/dp/X" }
    mode := "auto"
    fetch := .ok { ok := true, status := 200, respUrl := none,
                   body := "Our systems have detected Unusual Traffic from your network" }
    dom := emptyDom
    browser := { nav := .error "browser tier reached" }
    sandboxFixture := none }

/-- C5 witness. -/
theorem bot_signature_soft_null_witness :
    tryHtml cexBotWorld = .ok none ∧ productInfo cexBotWorld = autoBrowserTier cexBotWorld := by
  constructor
  · exact bot_signature_soft_null.1 cexBotWorld
      { ok := true, status := 200, respUrl := none,
        body := "Our systems have detected Unusual Traffic from your network" }
      rfl rfl (by decide) (Or.inr (Or.inl (by decide)))
  · exact bot_signature_soft_null.2 cexBotWorld
      { ok := true, status := 200, respUrl := none,
        body := "Our systems have detected Unusual Traffic from your network" }
      (by decide) rfl rfl rfl (by decide) (Or.inr (Or.inl (by decide)))

/- ===== C2 ===== -/

/-- The world of the C2/C3 counterexamples: an allowed initial host whose
fetch redirects to a disallowed final host. -/
def cexRedirectWorld : ExtractWorld :=
  { u0 := { hostname := "www.amazon.in", href := "https://www.amazon.in/dp/X" }
    mode := "html"
    fetch := .ok { ok := true, status := 200,
                   respUrl := some { hostname := "evil.example", href := "https://evil.example/p" }
                   body := "" }
    dom := emptyDom
    browser := { nav := .error "unused" }
    sandboxFixture := none }

/-- C2 counterexample: the post-redirect disallowed host does produce the
DomainNotAllowed-style message, but the response status is 500 — the generic
server-failure status, not a client error, refuting the claim that this
failure is a client error distinct from a generic server failure. -/
theorem redirect_disallowed_counterexample :
    (productInfo cexRedirectWorld).status = 500 ∧
    isClientError (productInfo cexRedirectWorld).status = false ∧
    (productInfo cexRedirectWorld).body =
      .errMsg "Final domain not allowed: evil.example" := by
  refine ⟨by decide, by decide, by decide⟩

/-- C2 amended: both extraction paths do re-validate the final post-redirect
host and abort with a `Final domain not allowed: <host>` error before
extracting, but the error surfaces through the generic catch handler as
HTTP 500 — the same status class as a generic server failure — rather than
as a distinct client error. -/
theorem redirect_disallowed_amended :
    (∀ (w : ExtractWorld) (resp : FetchResp), w.fetch = .ok resp → resp.ok = true →
      isAllowedHost (finalUrlOf w resp).hostname = false →
      tryHtml w = .error ("Final domain not allowed: " ++ (finalUrlOf w resp).hostname))
    ∧ (∀ (w : ExtractWorld) (resp : FetchResp), isAllowedHost w.u0.hostname = true →
      (w.mode = "html" ∨ w.mode = "auto") → w.fetch = .ok resp → resp.ok = true →
      isAllowedHost (finalUrlOf w resp).hostname = false →
      productInfo w =
        ⟨500, .errMsg ("Final domain not allowed: " ++ (finalUrlOf w resp).hostname)⟩)
    ∧ (∀ (w : ExtractWorld) (pg : BrowserPage), isAllowedHost w.u0.hostname = true →
      w.mode = "browser" → w.browser.nav = .ok pg →
      isAllowedHost (strToLower pg.finalUrl.hostname) = false →
      productInfo w =
        ⟨500, .errMsg ("Final domain not allowed: " ++ strToLower pg.finalUrl.hostname)⟩) := by
  have core : ∀ (w : ExtractWorld) (resp : FetchResp), w.fetch = .ok resp → resp.ok = true →
      isAllowedHost (finalUrlOf w resp).hostname = false →
      tryHtml w = .error ("Final domain not allowed: " ++ (finalUrlOf w resp).hostname) := by
    intro w resp hf hok hall
    unfold tryHtml
    rw [hf]
    dsimp only
    rw [hok]
    rw [if_neg (by simp)]
    rw [hall]
    rw [if_pos (by simp)]
  refine ⟨core, fun w resp h0 hmode hf hok hall => ?_, fun w pg h0 hmode hnav hall => ?_⟩
  · have hmsg := core w resp hf hok hall
    unfold productInfo
    rw [h0]
    rw [if_neg (by simp)]
    rcases hmode with hm | hm
    · rw [hm]
      rw [if_neg (by decide), if_pos rfl, hmsg]
    · rw [hm]
      rw [if_neg (by decide), if_neg (by decide), if_neg (by decide), hmsg]
  · have hbr : extractWithBrowser w.browser =
        .error ("Final domain not allowed: " ++ strToLower pg.finalUrl.hostname) := by
      unfold extractWithBrowser
      rw [hnav]
      dsimp only
      rw [hall]
      rw [if_pos (by simp)]
    unfold productInfo
    rw [h0, hmode]
    rw [if_neg (by simp)]
    rw [if_neg (by decide), if_neg (by decide), if_pos rfl, hbr]

/-- C2 witness: the amended html-path conjunct at the concrete redirecting
world. -/
theorem redirect_disallowed_amended_witness :
    productInfo cexRedirectWorld =
      ⟨500, .errMsg "Final domain not allowed: evil.example"⟩ := by
  have := redirect_disallowed_amended.2.1 cexRedirectWorld
    { ok := true, status := 200,
      respUrl := some { hostname := "evil.example", href := "https://evil.example/p" }
      body := "" }
    (by decide) (Or.inl rfl) rfl rfl (by decide)
  exact this

/- ===== C3 ===== -/

/-- A browser world that would succeed with a complete record (for showing
that AUTO does not escalate on an HTML throw even when the browser tier
would have worked). -/
def cexAutoBrowser : BrowserWorld :=
  { nav := .ok
      { finalUrl := { hostname := "www.amazon.in", href := "https://www.amazon.in/dp/B07WNS52H2" }
        prod := some
          { name := some "NAKPRO Micronised Creatine Monohydrate 250g"
            brand := .str "NAKPRO"
            image := .absent
            offers := some { price := .num 499, priceCurrency := none }
            aggregateRating := none }
        locText := fun _ => none
        locAttr := fun _ _ => none } }

/-- An AUTO request whose HTML tier throws (`Upstream returned 503`) while
the browser tier would succeed. -/
def cexAutoWorld : ExtractWorld :=
  { u0 := { hostname := "www.amazon.in", href := "https://www.amazon.in/dp/B07WNS52H2" }
    mode := "auto"
    fetch := .ok { ok := false, status := 503, respUrl := none, body := "" }
    dom := emptyDom
    browser := cexAutoBrowser
    sandboxFixture := none }

/-- C3 counterexample: in auto mode a throwing HTML tier is NOT escalated to
the browser: the request fails with the generic 500 `Upstream returned 503`
even though the browser tier would have returned a complete record,
refuting the claimed escalate-on-throw behaviour. -/
theorem auto_mode_counterexample :
    productInfo cexAutoWorld = ⟨500, .errMsg "Upstream returned 503"⟩ ∧
    (∃ d, extractWithBrowser cexAutoWorld.browser = .ok d ∧ minimalOk d = true) := by
  exact ⟨by decide,
    ⟨{ platform := "Amazon", url := "https://www.amazon.in/dp/B07WNS52H2"
       productName := some "NAKPRO Micronised Creatine Monohydrate 250g"
       brand := some "NAKPRO", price := some 499, currency := some "INR"
       image := none, rating := none, ratingCount := none }, rfl, by decide⟩⟩

/-- C3 amended: auto mode invokes the HTML tier first and escalates to the
browser tier exactly when HTML returns null (bot signature) or a record
failing the completeness check; when the HTML tier throws, the error
surfaces as a generic 500 failure without a browser attempt; and when the
escalated browser result fails completeness the request fails with the 451
`Could not extract product details (auto).` error. -/
theorem auto_mode_amended :
    (∀ (w : ExtractWorld) (e : String), isAllowedHost w.u0.hostname = true →
      w.mode = "auto" → tryHtml w = .error e → productInfo w = ⟨500, .errMsg e⟩)
    ∧ (∀ (w : ExtractWorld), isAllowedHost w.u0.hostname = true → w.mode = "auto" →
      tryHtml w = .ok none → productInfo w = autoBrowserTier w)
    ∧ (∀ (w : ExtractWorld) (d : ProductRecord), isAllowedHost w.u0.hostname = true →
      w.mode = "auto" → tryHtml w = .ok (some d) → minimalOk d = false →
      productInfo w = autoBrowserTier w)
    ∧ (∀ (w : ExtractWorld) (d : ProductRecord), isAllowedHost w.u0.hostname = true →
      w.mode = "auto" → tryHtml w = .ok (some d) → minimalOk d = true →
      productInfo w = ⟨200, .product d⟩)
    ∧ (∀ (w : ExtractWorld) (d2 : ProductRecord),
      extractWithBrowser w.browser = .ok d2 → minimalOk d2 = false →
      autoBrowserTier w = ⟨451, .errMsg "Could not extract product details (auto)."⟩) := by
  have openAuto : ∀ (w : ExtractWorld), isAllowedHost w.u0.hostname = true →
      w.mode = "auto" →
      productInfo w =
        (match tryHtml w with
          | .error e => ⟨500, .errMsg e⟩
          | .ok none => autoBrowserTier w
          | .ok (some data) =>
            if !minimalOk data then autoBrowserTier w else ⟨200, .product data⟩) := by
    intro w h0 hm
    unfold productInfo
    rw [h0, hm]
    rw [if_neg (by simp)]
    rw [if_neg (by decide), if_neg (by decide), if_neg (by decide)]
  refine ⟨fun w e h0 hm ht => ?_, fun w h0 hm ht => ?_, fun w d h0 hm ht hmin => ?_,
    fun w d h0 hm ht hmin => ?_, fun w d2 hb hmin => ?_⟩
  · rw [openAuto w h0 hm, ht]
  · rw [openAuto w h0 hm, ht]
  · rw [openAuto w h0 hm, ht]
    simp [hmin]
  · rw [openAuto w h0 hm, ht]
    simp [hmin]
  · unfold autoBrowserTier
    rw [hb]
    simp [hmin]

/-- C3 witness: the throw conjunct of the amended theorem at the concrete
world of the counterexample. -/
theorem auto_mode_amended_witness :
    productInfo cexAutoWorld = ⟨500, .errMsg "Upstream returned 503"⟩ :=
  auto_mode_amended.1 cexAutoWorld "Upstream returned 503" (by decide) rfl rfl

/- ===== C7 ===== -/

theorem matchMrpAt_phrase (B : List Char) :
    matchMrpAt ('M':: 'R':: 'P':: ' ':: '₹':: '4':: '9':: '9':: '.':: '0':: '0'::B) =
      some ['4', '9', '9', '.', '0', '0'] := rfl

theorem matchMrpAt_ne_M (c : Char) (cs : List Char) (h : c ≠ 'M') :
    matchMrpAt (c :: cs) = none := by
  have h1 : ('M' == c) = false := by
    simp [Ne.symm h]
  simp [matchMrpAt, mrpLabel, dropLit, h1]

theorem scan_skip_noM (p rest : List Char) (hp : ∀ c ∈ p, c ≠ 'M') :
    scan matchMrpAt (p ++ rest) = scan matchMrpAt rest := by
  induction p with
  | nil => rfl
  | cons c cs ih =>
    have hc : matchMrpAt (c :: (cs ++ rest)) = none :=
      matchMrpAt_ne_M _ _ (hp c (List.mem_cons_self _ _))
    simp only [List.cons_append, scan, List.append_eq, hc]
    exact ih (fun c' hc' => hp c' (List.mem_cons_of_mem _ hc'))

theorem scan_mrp_phrase (B : List Char) :
    scan matchMrpAt ('M':: 'R':: 'P':: ' ':: '₹':: '4':: '9':: '9':: '.':: '0':: '0'::B) =
      some ['4', '9', '9', '.', '0', '0'] := by
  simp [scan, matchMrpAt_phrase]

/-- The whitespace state after emitting a chunk (whether the last character
seen was whitespace). -/
def wsTail (b : Bool) (xs : List Char) : Bool :=
  xs.foldl (fun _ c => isWS c) b

theorem collapseGo_append (xs : List Char) (b : Bool) (ys : List Char) :
    collapseGo b (xs ++ ys) = collapseGo b xs ++ collapseGo (wsTail b xs) ys := by
  induction xs generalizing b with
  | nil => rfl
  | cons c cs ih =>
    cases hw : isWS c with
    | true =>
      cases b with
      | true => simp [collapseGo, hw, ih, wsTail]
      | false => simp [collapseGo, hw, ih, wsTail]
    | false => simp [collapseGo, hw, ih, wsTail]

theorem collapseGo_phrase (st : Bool) (s : List Char) :
    collapseGo st ("MRP ₹499.00".data ++ s) =
      "MRP ₹499.00".data ++ collapseGo false s := by
  cases st <;> simp +decide [collapseGo, isWS]

theorem map_toUpper_phrase (x : List Char) :
    List.map Char.toUpper ("MRP ₹499.00".data ++ x) =
      "MRP ₹499.00".data ++ List.map Char.toUpper x := by
  rw [List.map_append]
  rw [show List.map Char.toUpper "MRP ₹499.00".data = "MRP ₹499.00".data from by decide]

theorem normalizeL_phrase_decomp (a b : List Char) :
    normalizeL (a ++ "MRP ₹499.00".data ++ b) =
      (collapseGo false a).map Char.toUpper ++
        ("MRP ₹499.00".data ++ (collapseGo false b).map Char.toUpper) := by
  unfold normalizeL
  rw [List.append_assoc, collapseGo_append, collapseGo_phrase, List.map_append,
    map_toUpper_phrase]

/-- C7 counterexample: an input containing `"MRP ₹499.00"` whose parser
output is nevertheless `"12"` (an earlier MRP label wins the leftmost
match), refuting the claim for arbitrary containing inputs. -/
theorem mrp_roundtrip_counterexample :
    "MRP 12 MRP ₹499.00".data =
        "MRP 12 ".data ++ "MRP ₹499.00".data ++ ([] : List Char) ∧
    (parseFields "MRP 12 MRP ₹499.00").mrp.text = some "12" ∧
    (some "12" : Option String) ≠ some "499.00" :=
  ⟨by decide, by decide, by decide⟩

/-- C7 amended: every input containing `"MRP ₹499.00"` yields
`mrp.compliant = true`; and `mrp.text = "499.00"` whenever that occurrence
is the leftmost MRP-pattern match — in particular whenever no `'M'` occurs
before it in the normalized text, and for the input `"MRP ₹499.00"` itself —
but an earlier MRP label may shift the leftmost match and change the
captured text. -/
theorem mrp_roundtrip_amended :
    (∀ t : String, (∃ a b, t.data = a ++ "MRP ₹499.00".data ++ b) →
      (parseFields t).mrp.compliant = true)
    ∧ (∀ (t : String) (P S : List Char),
      normalizeL t.data = P ++ "MRP ₹499.00".data ++ S →
      (∀ c ∈ P, c ≠ 'M') →
      (parseFields t).mrp.text = some "499.00")
    ∧ (parseFields "MRP ₹499.00").mrp = ⟨some "499.00", 85, true⟩ := by
  refine ⟨fun t h => ?_, fun t P S hnorm hP => ?_, by decide⟩
  · obtain ⟨a, b, hab⟩ := h
    show (scan matchMrpAt (normalizeL t.data)).isSome = true
    rw [hab, normalizeL_phrase_decomp]
    refine scan_isSome_of_suffix _ ("MRP ₹499.00".data ++ (collapseGo false b).map Char.toUpper)
      _ ['4', '9', '9', '.', '0', '0'] (matchMrpAt_phrase _) (List.suffix_append _ _)
  · show groupText (scan matchMrpAt (normalizeL t.data)) = some "499.00"
    rw [hnorm, List.append_assoc, scan_skip_noM P _ hP]
    rw [show ("MRP ₹499.00".data ++ S) =
      'M':: 'R':: 'P':: ' ':: '₹':: '4':: '9':: '9':: '.':: '0':: '0'::S from rfl]
    rw [scan_mrp_phrase]
    rfl

/-- C7 witness: the leftmost-match conjunct at a concrete input with a
clean prefix. -/
theorem mrp_roundtrip_amended_witness :
    (parseFields "QTY 5 MRP ₹499.00").mrp.text = some "499.00" :=
  mrp_roundtrip_amended.2.1 "QTY 5 MRP ₹499.00" "QTY 5 ".data [] (by decide) (by decide)
